import Mathlib

/-!
Verification of the worker lifecycle manager (`src/worker/worker.go`).

The Go source is shallowly embedded below.  Pure computations (the config
override engine `overrideOpts`, path construction) are translated to Lean
functions.  Effectful operations (file system writes, HTTP polling, signal
probes, cleanup syscalls) are modelled by explicit oracles: a function from
the call arguments (and, for the polling loops, the attempt index) to the
outcome the operating system would return, together with an explicit trace
of the operations attempted.  Machine integers are modelled as `Int` with
the explicit 64-bit range check that `strconv.Atoi` performs.
-/

/-- Single quote character, used in several Go error message strings. -/
def squote : String := String.singleton (Char.ofNat 39)

/-- A result of a CLI action: Go `error` return, `ok` standing for `nil`. -/
inductive CmdResult where
  | ok
  | err (msg : String)
deriving Repr, DecidableEq

/-- ASCII lower-casing, modelling `strings.ToLower` as used on the
candidate boolean values (only ASCII letters are relevant there). -/
def strToLower (s : String) : String := s.map Char.toLower

/-- Numeric value of a list of decimal digit characters. -/
def digitsVal (cs : List Char) : Nat :=
  cs.foldl (fun a c => a * 10 + (c.toNat - 48)) 0

/-- Does the string have the shape accepted by `strconv.Atoi`:
an optional sign followed by one or more decimal digits? -/
def atoiShapeOk (s : String) : Bool :=
  let cs := s.toList
  let ds := match cs with
    | '-' :: rest => rest
    | '+' :: rest => rest
    | _ => cs
  (!ds.isEmpty) && ds.all (fun c => c.isDigit)

/-- The integer denoted by an `atoiShapeOk` string. -/
def atoiRaw (s : String) : Int :=
  match s.toList with
  | '-' :: rest => - (digitsVal rest : Int)
  | '+' :: rest => (digitsVal rest : Int)
  | cs => (digitsVal cs : Int)

/-- Model of Go `strconv.Atoi`: optional sign, decimal digits, and the
64-bit `int` range check (out-of-range values are an error). -/
def atoi (s : String) : Option Int :=
  if atoiShapeOk s then
    let n := atoiRaw s
    if n < - (2 ^ 63) ∨ 2 ^ 63 - 1 < n then none else some n
  else none

/-- The error text produced by `strconv.Atoi` on a failing input. -/
def atoiErr (s : String) : String :=
  if atoiShapeOk s then
    "strconv.Atoi: parsing " ++ "\"" ++ s ++ "\"" ++ ": value out of range"
  else
    "strconv.Atoi: parsing " ++ "\"" ++ s ++ "\"" ++ ": invalid syntax"

/-- Helper for `splitChar`: accumulate the current field (reversed). -/
def splitCharAux (sep : Char) : List Char → List Char → List String
  | [], acc => [String.mk acc.reverse]
  | c :: rest, acc =>
      if c = sep then String.mk acc.reverse :: splitCharAux sep rest []
      else splitCharAux sep rest (c :: acc)

/-- Model of `strings.Split(s, sep)` for the single-character separators
this program uses (",", "=", "."): the list of fields between occurrences
of the separator; the empty string yields one empty field. -/
def splitChar (sep : Char) (s : String) : List String := splitCharAux sep s.toList []

/-- Model of `strings.TrimSpace`: drop leading and trailing whitespace
characters (the bodies polled here are ASCII). -/
def trimSpace (s : String) : String :=
  String.mk (((s.toList.dropWhile Char.isWhitespace).reverse.dropWhile Char.isWhitespace).reverse)

/-- A JSON value as produced by `json.Unmarshal` into `map[string]any`,
plus the `jint` tag for the Go `int` values that `overrideOpts` itself
writes back into the tree (`json.Unmarshal` never produces `jint`).
Number payloads are modelled as integers: the override engine inspects
only the type tag of an existing number, never its payload. -/
inductive JVal where
  | jstr (s : String)
  | jnum (n : Int)
  | jint (n : Int)
  | jbool (b : Bool)
  | jnull
  | jarr (elems : List JVal)
  | jobj (fields : List (String × JVal))
deriving Repr

/-- The Go `%T` rendering of the dynamic type of a decoded JSON value. -/
def goTypeName : JVal → String
  | .jstr _ => "string"
  | .jnum _ => "float64"
  | .jint _ => "int"
  | .jbool _ => "bool"
  | .jnull => "<nil>"
  | .jarr _ => "[]interface \x7b\x7d"
  | .jobj _ => "map[string]interface \x7b\x7d"

/-- Map lookup `v, ok := c[key]` on the association-list model of a
`map[string]any` (first binding wins; decoded maps have distinct keys). -/
def lookupKey : List (String × JVal) → String → Option JVal
  | [], _ => none
  | (k, v) :: rest, key => if k = key then some v else lookupKey rest key

/-- Map assignment `c[key] = v` for a key already present in the map. -/
def setKey : List (String × JVal) → String → JVal → List (String × JVal)
  | [], _, _ => []
  | (k, v) :: rest, key, nv =>
      if k = key then (k, nv) :: rest else (k, v) :: setKey rest key nv

/-- Resolve a dotted key path: every segment but the last must name a
nested object; the result is the value stored at the final segment. -/
def resolvePath : List (String × JVal) → List String → Option JVal
  | _, [] => none
  | c, [k] => lookupKey c k
  | c, k :: rest =>
      match lookupKey c k with
      | some (JVal.jobj sub) => resolvePath sub rest
      | _ => none

/-- Replace the value at a dotted key path that resolves. -/
def setPath : List (String × JVal) → List String → JVal → List (String × JVal)
  | c, [], _ => c
  | c, [k], w => setKey c k w
  | c, k :: rest, w =>
      match lookupKey c k with
      | some (JVal.jobj sub) => setKey c k (JVal.jobj (setPath sub rest w))
      | _ => c

/-- The type-directed coercion `overrideOpts` applies at an existing leaf
(`switch prev.(type)` in the source): an existing string takes the literal
text, an existing `float64` takes the `strconv.Atoi` parse of the text
(yielding a Go `int`), an existing bool compares the lower-cased text with
"true"/"false", and every other type is the manual-edit error. -/
def coerce (prev : JVal) (key val : String) : Except String JVal :=
  match prev with
  | .jstr _ => .ok (.jstr val)
  | .jnum _ =>
      match atoi val with
      | some n => .ok (.jint n)
      | none => .error (atoiErr val)
  | .jbool _ =>
      if strToLower val = "true" then .ok (.jbool true)
      else if strToLower val = "false" then .ok (.jbool false)
      else .error (squote ++ val ++ squote ++ " for " ++ key ++ " not a valid boolean value")
  | other =>
      .error ("config values of type " ++ goTypeName other ++ " (" ++ key
        ++ ") must be edited manually in the config file ")

/-- Apply one parsed override to the configuration tree: walk the
intermediate segments (each must be a present nested map), then coerce at
the leaf segment, which must be present. -/
def applyKeys : List (String × JVal) → List String → String → Except String (List (String × JVal))
  | _, [], _ => .error "empty key path"
  | c, [k], val =>
      match lookupKey c k with
      | none => .error ("invalid option: " ++ squote ++ k ++ squote)
      | some prev =>
          match coerce prev k val with
          | .ok w => .ok (setKey c k w)
          | .error e => .error e
  | c, k :: rest, val =>
      match lookupKey c k with
      | none => .error ("key " ++ squote ++ k ++ squote ++ " not found")
      | some (JVal.jobj sub) =>
          match applyKeys sub rest val with
          | .ok sub2 => .ok (setKey c k (JVal.jobj sub2))
          | .error e => .error e
      | some v => .error (k ++ " refers to a " ++ goTypeName v ++ ", not a map")

/-- Apply one `dottedKey=value` item of the override spec. -/
def applyOpt (c : List (String × JVal)) (opt : String) : Except String (List (String × JVal)) :=
  match splitChar '=' opt with
  | [k, v] => applyKeys c (splitChar '.' k) v
  | _ => .error ("Could not parse key=val: " ++ squote ++ opt ++ squote)

/-- Apply the comma-separated items of the override spec in order,
stopping at the first error, exactly as the loop in `overrideOpts`. -/
def applyOpts (c : List (String × JVal)) : List String → Except String (List (String × JVal))
  | [] => .ok c
  | o :: rest =>
      match applyOpt c o with
      | .ok c2 => applyOpts c2 rest
      | .error e => .error e

/-- Is this `Except` an error? -/
def isErrorB : Except String α → Bool
  | .error _ => true
  | .ok _ => false

/-- One level of indentation per nesting depth, using the tab indent that
`overrideOpts` passes to `json.MarshalIndent`. -/
def indentStr (n : Nat) : String := String.mk (List.replicate n '\t')

/-- Hexadecimal digit character (lower case), for `\u00XX` escapes. -/
def hexDigit (n : Nat) : Char := if n < 10 then Char.ofNat (48 + n) else Char.ofNat (87 + n)

/-- Escape one character the way the Go JSON encoder does (HTML-safe
escaping of angle brackets and ampersand included). -/
def escChar (c : Char) : String :=
  if c = '"' then "\\\""
  else if c = '\\' then "\\\\"
  else if c = '\n' then "\\n"
  else if c = '\r' then "\\r"
  else if c = '\t' then "\\t"
  else if c = '<' then "\\u003c"
  else if c = '>' then "\\u003e"
  else if c = '&' then "\\u0026"
  else if c.toNat < 32 then "\\u00" ++ String.mk [hexDigit (c.toNat / 16), hexDigit (c.toNat % 16)]
  else String.singleton c

/-- A JSON string literal as emitted by the Go encoder. -/
def quoteGo (s : String) : String := "\"" ++ String.join (s.toList.map escChar) ++ "\""

/-- Insert one rendered field into a key-sorted list of rendered fields
(the Go encoder emits map keys in sorted order). -/
def insertEntry (e : String × String) : List (String × String) → List (String × String)
  | [] => [e]
  | f :: rest => if e.1 ≤ f.1 then e :: f :: rest else f :: insertEntry e rest

/-- Sort rendered fields by key. -/
def sortEntries : List (String × String) → List (String × String)
  | [] => []
  | e :: rest => insertEntry e (sortEntries rest)

mutual
/-- Model of `json.MarshalIndent(v, "", "\t")` at nesting depth `ind`. -/
def marshalVal : Nat → JVal → String
  | _, JVal.jstr s => quoteGo s
  | _, JVal.jnum n => toString n
  | _, JVal.jint n => toString n
  | _, JVal.jbool b => if b then "true" else "false"
  | _, JVal.jnull => "null"
  | ind, JVal.jarr es =>
      match es with
      | [] => "[]"
      | _ :: _ =>
          "[\n" ++ String.intercalate ",\n" ((marshalElems (ind + 1) es).map (fun l => indentStr (ind + 1) ++ l))
            ++ "\n" ++ indentStr ind ++ "]"
  | ind, JVal.jobj fs =>
      match fs with
      | [] => "\x7b\x7d"
      | _ :: _ =>
          "\x7b\n" ++ String.intercalate ",\n"
              ((sortEntries (marshalFields (ind + 1) fs)).map
                (fun e => indentStr (ind + 1) ++ quoteGo e.1 ++ ": " ++ e.2))
            ++ "\n" ++ indentStr ind ++ "\x7d"

/-- Render every element of an array. -/
def marshalElems : Nat → List JVal → List String
  | _, [] => []
  | ind, v :: rest => marshalVal ind v :: marshalElems ind rest

/-- Render every field of an object, keeping keys for sorting. -/
def marshalFields : Nat → List (String × JVal) → List (String × String)
  | _, [] => []
  | ind, (k, v) :: rest => (k, marshalVal ind v) :: marshalFields ind rest
end

/-- Top-level serialization of the merged tree. -/
def marshalIndent (v : JVal) : String := marshalVal 0 v

/-- The file system, as a mapping from path to content (association list,
first binding wins). -/
abbrev FS := List (String × String)

/-- Content of the file at a path, if present. -/
def fsRead : FS → String → Option String
  | [], _ => none
  | (q, t) :: rest, p => if q = p then some t else fsRead rest p

/-- `ioutil.WriteFile`: replace the content at the path, creating the
file if absent. -/
def fsWrite : FS → String → String → FS
  | [], p, s => [(p, s)]
  | (q, t) :: rest, p, s => if q = p then (q, s) :: rest else (q, t) :: fsWrite rest p s

/-- Model of `overrideOpts(confPath, overridePath, optsStr)`.  The read of
`confPath` is modelled on the file map; the `json.Unmarshal` of the bytes
read is abstracted by the `conf` parameter, which stands for the loaded
configuration tree.  On success the merged tree is serialized and written
to `overridePath`; on any error nothing is written.  The returned option
is the Go `error` result. -/
def overrideOpts (fs : FS) (conf : List (String × JVal))
    (confPath overridePath optsStr : String) : FS × Option String :=
  match fsRead fs confPath with
  | none => (fs, some ("open " ++ confPath ++ ": no such file or directory"))
  | some _ =>
      match applyOpts conf (splitChar ',' optsStr) with
      | .error e => (fs, some e)
      | .ok conf2 => (fsWrite fs overridePath (marshalIndent (JVal.jobj conf2)), none)

/-- What the environment presents to one iteration of the readiness loop
of `up`: the death channel has fired (with the `Wait` error, if any), or
the HTTP GET of `/pid` failed to connect, or it returned a body. -/
inductive PollEvent where
  | died (waitErr : Option String)
  | connFail (e : String)
  | response (body : String)
deriving Repr, DecidableEq

/-- Outcome of the readiness loop: the returned result, the number of
loop iterations entered, and the number of 100ms sleeps performed. -/
structure PollOutcome where
  result : CmdResult
  attempts : Nat
  sleeps : Nat
deriving Repr, DecidableEq

/-- Rendering of the `pingErr` variable in the final timeout message
(`%s` of a nil Go error prints this placeholder). -/
def pingErrStr : Option String → String
  | some e => e
  | none => "%!s(<nil>)"

/-- The readiness polling loop of `up` (detached branch), iteration by
iteration.  `i` is the next attempt index, the second argument is the
remaining attempt budget, then the sleeps so far and the last connection
error observed.  Each iteration first drains the death channel, then
issues the HTTP GET (a connection failure sleeps 100ms and retries), then
parses the body as the reported PID and compares it with the child PID.
The ignored zero-signal probe of the source has no observable effect and
is not modelled. -/
def pollFrom (pid : Nat) (env : Nat → PollEvent) : Nat → Nat → Nat → Option String → PollOutcome
  | i, 0, sleeps, pingErr =>
      ⟨CmdResult.err ("worker still not reachable after 30 seconds :: " ++ pingErrStr pingErr),
       i, sleeps⟩
  | i, rem + 1, sleeps, _pingErr =>
      match env i with
      | PollEvent.died (some e) => ⟨CmdResult.err e, i + 1, sleeps⟩
      | PollEvent.died none =>
          ⟨CmdResult.err ("worker process " ++ toString pid
            ++ " does not a appear to be running, check worker.out"), i + 1, sleeps⟩
      | PollEvent.connFail e => pollFrom pid env (i + 1) rem (sleeps + 1) (some e)
      | PollEvent.response body =>
          match atoi (trimSpace body) with
          | none => ⟨CmdResult.err ("/pid did not return an int :: " ++ atoiErr (trimSpace body)),
                     i + 1, sleeps⟩
          | some p =>
              if p = (pid : Int) then ⟨CmdResult.ok, i + 1, sleeps⟩
              else ⟨CmdResult.err ("expected PID " ++ toString pid ++ " but found "
                      ++ toString p ++ " (port conflict?)"), i + 1, sleeps⟩

/-- The readiness loop as entered by `up`: 300 attempts, no sleeps yet,
no connection error observed yet. -/
def pollReady (pid : Nat) (env : Nat → PollEvent) : PollOutcome :=
  pollFrom pid env 0 300 0 none

/-- The last connection error seen before attempt `i`, assuming every
earlier attempt was a connection failure. -/
def lastPing (env : Nat → PollEvent) : Nat → Option String
  | 0 => none
  | k + 1 =>
      match env k with
      | PollEvent.connFail s => some s
      | _ => none

/-- The timeout error message of `down`. -/
def downTimeoutMsg : String := "worker didn" ++ squote ++ "t stop after 30s"

/-- The polling loop of `down`: `alive i` is whether the zero-signal
probe of attempt `i` succeeds (the process still exists).  A failing
probe means the process stopped: return success.  Otherwise sleep 100ms
and retry, up to the remaining budget. -/
def downWaitFrom (alive : Nat → Bool) : Nat → Nat → CmdResult
  | _, 0 => CmdResult.err downTimeoutMsg
  | i, rem + 1 => if alive i then downWaitFrom alive (i + 1) rem else CmdResult.ok

/-- Model of the tail of `down` once the PID has been read from the PID
file: `os.FindProcess` and the SIGINT send may each fail, which is only
printed (two diagnostic lines each), then the 300-attempt wait loop runs.
Returns the Go result together with the printed diagnostics. -/
def down (pid : Nat) (findErr signalErr : Option String) (alive : Nat → Bool) :
    CmdResult × List String :=
  let d0 := ["Killing worker process with PID " ++ toString pid]
  let d1 := match findErr with
    | some e => [e, "Failed to find worker process with PID " ++ toString pid
                  ++ ".  May require manual cleanup."]
    | none => []
  let d2 := match signalErr with
    | some e => [e, "Failed to kill process with PID " ++ toString pid
                  ++ ".  May require manual cleanup."]
    | none => []
  (downWaitFrom alive 0 300, d0 ++ d1 ++ d2)

/-- Character-list prefix test. -/
def isPrefixList : List Char → List Char → Bool
  | [], _ => true
  | _ :: _, [] => false
  | a :: as, b :: bs => a = b && isPrefixList as bs

/-- Character-list substring test: does the first list occur contiguously
inside the second? -/
def isSubOf (n : List Char) : List Char → Bool
  | [] => isPrefixList n []
  | h :: t => isPrefixList n (h :: t) || isSubOf n t

/-- Concatenating map over a list (the loops of `cleanup` emit zero or
more operations and diagnostics per directory entry). -/
def listConcatMap (f : α → List β) : List α → List β
  | [] => []
  | a :: rest => f a ++ listConcatMap f rest

/-- Model of `filepath.Join` for the clean, slash-free components this
program joins. -/
def joinPath (a b : String) : String := a ++ "/" ++ b

/-- Model of `filepath.Base`: drop trailing slashes, then keep everything
after the last slash; empty input gives ".", all-slash input gives "/". -/
def filepathBase (p : String) : String :=
  if p = "" then "."
  else
    let cs := (p.toList.reverse.dropWhile (fun c => c = '/')).reverse
    if cs.isEmpty then "/"
    else String.mk ((cs.reverse.takeWhile (fun c => c ≠ '/')).reverse)

/-- An operating-system operation attempted by `cleanup`. -/
inductive OSOp where
  | readDir (p : String)
  | writeFile (p content : String)
  | rmdir (p : String)
  | unmount (p : String)
  | removeFile (p : String)
deriving Repr, DecidableEq

/-- Outcomes the operating system returns to `cleanup`: directory
listings (names of entries) and, for the destructive calls, an optional
error. -/
structure CleanupOracle where
  readDir : String → Except String (List String)
  writeFile : String → String → Option String
  rmdir : String → Option String
  unmount : String → Option String
  removeFile : String → Option String

/-- The cgroup root `cleanup` derives from the environment path. -/
def cgDir (olPath : String) : String :=
  "/sys/fs/cgroup/" ++ filepathBase olPath ++ "-sandboxes"

/-- The root-sandboxes mount directory under the environment. -/
def mountDir (olPath : String) : String :=
  joinPath (joinPath olPath "worker") "root-sandboxes"

/-- The worker PID file under the environment. -/
def pidFilePath (olPath : String) : String :=
  joinPath (joinPath olPath "worker") "worker.pid"

/-- Turn the optional error of a destructive call into the diagnostic
line `cleanup` prints for it. -/
def diagOf (res : Option String) (msg : String) : List String :=
  match res with
  | some e => [msg ++ e]
  | none => []

/-- The cgroup phase of `cleanup`: list the cgroup root (an unlistable
root is only reported), write the kill trigger, remove every `cg-`
child, then remove the root; every failure is only a diagnostic. -/
def cgPhase (olPath : String) (o : CleanupOracle) : List OSOp × List String :=
  let root := cgDir olPath
  match o.readDir root with
  | .error e => ([OSOp.readDir root], ["could not find cgroup root: " ++ e])
  | .ok files =>
      let kill := joinPath root "cgroup.kill"
      let cgs := files.filter (fun f => "cg-".isPrefixOf f)
      ([OSOp.readDir root, OSOp.writeFile kill "1"]
         ++ listConcatMap (fun f => [OSOp.rmdir (joinPath root f)]) cgs
         ++ [OSOp.rmdir root],
       diagOf (o.writeFile kill "1") "could kill processes in cgroup: "
         ++ listConcatMap (fun f => diagOf (o.rmdir (joinPath root f)) "could remove cgroup: ") cgs
         ++ diagOf (o.rmdir root) "could remove cgroup root: ")

/-- The per-entry operations of the mount phase: detach-unmount the
entry, then remove its directory. -/
def mountChildTrace (dir : String) (files : List String) : List OSOp :=
  listConcatMap (fun f => [OSOp.unmount (joinPath dir f), OSOp.rmdir (joinPath dir f)]) files

/-- The listing part of the mount phase of `cleanup`: list the
root-sandboxes directory (an unlistable directory is only reported);
for every entry detach-unmount it and remove its directory, each failure
being only a diagnostic.  The unmount of the parent directory itself
happens after this, unconditionally (see `cleanupRun`). -/
def mountPhase (olPath : String) (o : CleanupOracle) : List OSOp × List String :=
  let dir := mountDir olPath
  match o.readDir dir with
  | .error e => ([OSOp.readDir dir], ["could not find mount root: " ++ e])
  | .ok files =>
      (OSOp.readDir dir :: mountChildTrace dir files,
       listConcatMap (fun f =>
         diagOf (o.unmount (joinPath dir f)) "could not unmount: "
           ++ diagOf (o.rmdir (joinPath dir f)) "could remove mount dir: ") files)

/-- The trace and diagnostics of one run of `cleanup` over an
environment path: the cgroup phase, the mount phase, then (at top level
in the source, after the if/else on the listing) the detached unmount of
the root-sandboxes directory itself, then the PID file removal. -/
structure CleanupRun where
  trace : List OSOp
  diags : List String
deriving Repr, DecidableEq

/-- Execute `cleanup` against the oracle. -/
def cleanupRun (olPath : String) (o : CleanupOracle) : CleanupRun :=
  let cg := cgPhase olPath o
  let m := mountPhase olPath o
  let dir := mountDir olPath
  ⟨cg.1 ++ m.1 ++ [OSOp.unmount dir, OSOp.removeFile (pidFilePath olPath)],
   cg.2 ++ m.2 ++ diagOf (o.unmount dir) ("could not unmount " ++ dir ++ ": ")
     ++ diagOf (o.removeFile (pidFilePath olPath)) "could not remove worker.pid: "⟩

/-- The `cleanup` CLI action, given a resolved environment path: its Go
return value (always `nil` — the body after path resolution has no
error return) together with what it attempted and printed. -/
def cleanup (olPath : String) (o : CleanupOracle) : CmdResult × CleanupRun :=
  (CmdResult.ok, cleanupRun olPath o)

/-- A step attempted by `initOLDir`. -/
inductive InitOp where
  | mkdir (p : String)
  | loadDefaults (p : String)
  | saveConf (p : String)
  | newDockerClient
  | dumpImage (img dest : String)
  | writeFile (p content : String)
  | mknod (p mode : String) (major minor : Nat)
deriving Repr, DecidableEq

/-- Outcomes the collaborators return to `initOLDir`: each step yields
`none` on success or `some e` on failure.  The `workerDir`, `registryDir`
and `sockBasePath` fields are the configuration values that
`common.LoadDefaults` establishes. -/
structure InitOracle where
  mkdir : String → Option String
  loadDefaults : String → Option String
  saveConf : String → Option String
  newDockerClient : Option String
  dumpImage : String → String → Option String
  writeFile : String → String → Option String
  mknod : String → String → Nat → Nat → Option String
  workerDir : String
  registryDir : String
  sockBasePath : String

/-- The base image used when the `--image` flag is empty. -/
def imageOrDefault (s : String) : String := if s = "" then "ol-wasm" else s

/-- Record one attempted step; abort with its error or continue. -/
def initStep (res : Option String) (op : InitOp) (tr : List InitOp)
    (k : List InitOp → List InitOp × CmdResult) : List InitOp × CmdResult :=
  match res with
  | some e => (tr ++ [op], CmdResult.err e)
  | none => k (tr ++ [op])

/-- Model of `initOLDir(olPath, dockerBaseImage)`: the strictly
sequential chain of steps, each gating the next, ending with the three
`mknod` calls for the device nodes of the base image.  Returns the steps
attempted (in order) and the Go result. -/
def initOLDir (o : InitOracle) (olPath image : String) : List InitOp × CmdResult :=
  let img := imageOrDefault image
  let base := o.sockBasePath
  initStep (o.mkdir olPath) (InitOp.mkdir olPath) [] fun tr =>
  initStep (o.loadDefaults olPath) (InitOp.loadDefaults olPath) tr fun tr =>
  initStep (o.saveConf (joinPath olPath "config.json")) (InitOp.saveConf (joinPath olPath "config.json")) tr fun tr =>
  initStep (o.mkdir o.workerDir) (InitOp.mkdir o.workerDir) tr fun tr =>
  initStep (o.mkdir o.registryDir) (InitOp.mkdir o.registryDir) tr fun tr =>
  initStep o.newDockerClient InitOp.newDockerClient tr fun tr =>
  initStep (o.dumpImage img base) (InitOp.dumpImage img base) tr fun tr =>
  initStep (o.mkdir (joinPath base "handler")) (InitOp.mkdir (joinPath base "handler")) tr fun tr =>
  initStep (o.mkdir (joinPath base "host")) (InitOp.mkdir (joinPath base "host")) tr fun tr =>
  initStep (o.mkdir (joinPath base "packages")) (InitOp.mkdir (joinPath base "packages")) tr fun tr =>
  initStep (o.writeFile (joinPath (joinPath base "etc") "resolv.conf") "nameserver 8.8.8.8\n")
    (InitOp.writeFile (joinPath (joinPath base "etc") "resolv.conf") "nameserver 8.8.8.8\n") tr fun tr =>
  initStep (o.mknod (joinPath (joinPath base "dev") "null") "0644" 1 3)
    (InitOp.mknod (joinPath (joinPath base "dev") "null") "0644" 1 3) tr fun tr =>
  initStep (o.mknod (joinPath (joinPath base "dev") "random") "0644" 1 8)
    (InitOp.mknod (joinPath (joinPath base "dev") "random") "0644" 1 8) tr fun tr =>
  initStep (o.mknod (joinPath (joinPath base "dev") "urandom") "0644" 1 9)
    (InitOp.mknod (joinPath (joinPath base "dev") "urandom") "0644" 1 9) tr fun tr =>
  (tr, CmdResult.ok)

theorem lookup_setKey_self (c : List (String × JVal)) (k : String) (w : JVal)
    (h : (lookupKey c k).isSome = true) : lookupKey (setKey c k w) k = some w := by
  induction c with
  | nil => simp [lookupKey] at h
  | cons e rest ih =>
      obtain ⟨k1, v1⟩ := e
      by_cases hk : k1 = k
      · subst hk
        simp [lookupKey, setKey]
      · simp only [lookupKey, setKey, if_neg hk] at h ⊢
        exact ih h

theorem lookup_setKey_other (c : List (String × JVal)) (k k2 : String) (w : JVal)
    (h : k2 ≠ k) : lookupKey (setKey c k w) k2 = lookupKey c k2 := by
  induction c with
  | nil => simp [setKey]
  | cons e rest ih =>
      obtain ⟨k1, v1⟩ := e
      by_cases hk : k1 = k
      · subst hk
        have hne : k1 ≠ k2 := fun hh => h (hh ▸ rfl)
        simp [lookupKey, setKey, if_neg hne]
      · simp only [lookupKey, setKey, if_neg hk]
        by_cases hk2 : k1 = k2
        · simp [lookupKey, if_pos hk2]
        · simp [lookupKey, if_neg hk2, ih]

theorem coerce_ok_irrel (prev : JVal) (k0 k val : String) (w : JVal)
    (h : coerce prev k0 val = .ok w) : coerce prev k val = .ok w := by
  cases prev with
  | jstr s => exact h
  | jnum n =>
      simp only [coerce] at h ⊢
      cases hA : atoi val with
      | none => rw [hA] at h; exact absurd h (by simp)
      | some m => rw [hA] at h; exact h
  | jbool b =>
      simp only [coerce] at h ⊢
      by_cases h1 : strToLower val = "true"
      · rw [if_pos h1] at h ⊢; exact h
      · rw [if_neg h1] at h ⊢
        by_cases h2 : strToLower val = "false"
        · rw [if_pos h2] at h ⊢; exact h
        · rw [if_neg h2] at h; exact absurd h (by simp)
  | jint n => exact absurd h (by simp [coerce])
  | jnull => exact absurd h (by simp [coerce])
  | jarr a => exact absurd h (by simp [coerce])
  | jobj l => exact absurd h (by simp [coerce])

theorem coerce_err_irrel (prev : JVal) (k0 k val : String)
    (h : isErrorB (coerce prev k0 val) = true) : isErrorB (coerce prev k val) = true := by
  cases prev with
  | jstr s => simp [coerce, isErrorB] at h
  | jnum n =>
      simp only [coerce] at h ⊢
      cases hA : atoi val with
      | none => simp [isErrorB]
      | some m => rw [hA] at h; simp [isErrorB] at h
  | jbool b =>
      simp only [coerce] at h ⊢
      by_cases h1 : strToLower val = "true"
      · rw [if_pos h1] at h; simp [isErrorB] at h
      · rw [if_neg h1] at h ⊢
        by_cases h2 : strToLower val = "false"
        · rw [if_pos h2] at h; simp [isErrorB] at h
        · rw [if_neg h2]; simp [isErrorB]
  | jint n => simp [coerce, isErrorB]
  | jnull => simp [coerce, isErrorB]
  | jarr a => simp [coerce, isErrorB]
  | jobj l => simp [coerce, isErrorB]

theorem coerce_ok_not_obj (prev : JVal) (k val : String) (w : JVal)
    (h : coerce prev k val = .ok w) : ∀ l, w ≠ JVal.jobj l := by
  intro l hw
  subst hw
  cases prev with
  | jstr s => simp [coerce] at h
  | jnum n =>
      simp only [coerce] at h
      cases hA : atoi val with
      | none => rw [hA] at h; simp at h
      | some m => rw [hA] at h; simp at h
  | jbool b =>
      simp only [coerce] at h
      by_cases h1 : strToLower val = "true"
      · rw [if_pos h1] at h; simp at h
      · rw [if_neg h1] at h
        by_cases h2 : strToLower val = "false"
        · rw [if_pos h2] at h; simp at h
        · rw [if_neg h2] at h; simp at h
  | jint n => simp [coerce] at h
  | jnull => simp [coerce] at h
  | jarr a => simp [coerce] at h
  | jobj l2 => simp [coerce] at h

theorem applyKeys_ok_of_resolve (keys : List String) :
    ∀ (conf : List (String × JVal)) (prev w : JVal) (k0 val : String),
      resolvePath conf keys = some prev →
      coerce prev k0 val = .ok w →
      applyKeys conf keys val = .ok (setPath conf keys w) := by
  induction keys with
  | nil => intro conf prev w k0 val h _; simp [resolvePath] at h
  | cons k tail ih =>
      intro conf prev w k0 val h hc
      cases tail with
      | nil =>
          simp only [resolvePath] at h
          have hco := coerce_ok_irrel prev k0 k val w hc
          simp only [applyKeys, setPath, h, hco]
      | cons k2 rest =>
          simp only [resolvePath] at h
          cases hl : lookupKey conf k with
          | none => rw [hl] at h; simp at h
          | some v =>
              rw [hl] at h
              cases v with
              | jobj sub =>
                  simp only at h
                  simp only [applyKeys, setPath, hl, ih sub prev w k0 val h hc]
              | jstr s => simp at h
              | jnum n => simp at h
              | jint n => simp at h
              | jbool b => simp at h
              | jnull => simp at h
              | jarr a => simp at h

theorem applyKeys_err_of_resolve (keys : List String) :
    ∀ (conf : List (String × JVal)) (prev : JVal) (k0 val : String),
      resolvePath conf keys = some prev →
      isErrorB (coerce prev k0 val) = true →
      isErrorB (applyKeys conf keys val) = true := by
  induction keys with
  | nil => intro conf prev k0 val h _; simp [resolvePath] at h
  | cons k tail ih =>
      intro conf prev k0 val h hc
      cases tail with
      | nil =>
          simp only [resolvePath] at h
          have hce := coerce_err_irrel prev k0 k val hc
          cases hc2 : coerce prev k val with
          | ok w => rw [hc2] at hce; simp [isErrorB] at hce
          | error e => simp only [applyKeys, h, hc2, isErrorB]
      | cons k2 rest =>
          simp only [resolvePath] at h
          cases hl : lookupKey conf k with
          | none => rw [hl] at h; simp at h
          | some v =>
              rw [hl] at h
              cases v with
              | jobj sub =>
                  simp only at h
                  have hrec := ih sub prev k0 val h hc
                  cases ha : applyKeys sub (k2 :: rest) val with
                  | ok sub2 => rw [ha] at hrec; simp [isErrorB] at hrec
                  | error e => simp only [applyKeys, hl, ha, isErrorB]
              | jstr s => simp at h
              | jnum n => simp at h
              | jint n => simp at h
              | jbool b => simp at h
              | jnull => simp at h
              | jarr a => simp at h

theorem resolve_none_err (keys : List String) :
    ∀ (conf : List (String × JVal)) (val : String),
      resolvePath conf keys = none →
      isErrorB (applyKeys conf keys val) = true := by
  induction keys with
  | nil => intro conf val _; simp [applyKeys, isErrorB]
  | cons k tail ih =>
      intro conf val h
      cases tail with
      | nil =>
          simp only [resolvePath] at h
          simp only [applyKeys, h, isErrorB]
      | cons k2 rest =>
          simp only [resolvePath] at h
          cases hl : lookupKey conf k with
          | none => simp only [applyKeys, hl, isErrorB]
          | some v =>
              rw [hl] at h
              cases v with
              | jobj sub =>
                  simp only at h
                  have hrec := ih sub val h
                  cases ha : applyKeys sub (k2 :: rest) val with
                  | ok sub2 => rw [ha] at hrec; simp [isErrorB] at hrec
                  | error e => simp only [applyKeys, hl, ha, isErrorB]
              | jstr s => simp only [applyKeys, hl, isErrorB]
              | jnum n => simp only [applyKeys, hl, isErrorB]
              | jint n => simp only [applyKeys, hl, isErrorB]
              | jbool b => simp only [applyKeys, hl, isErrorB]
              | jnull => simp only [applyKeys, hl, isErrorB]
              | jarr a => simp only [applyKeys, hl, isErrorB]

theorem applyKeys_preserves_none (keys : List String) :
    ∀ (conf conf2 : List (String × JVal)) (val : String),
      applyKeys conf keys val = .ok conf2 →
      ∀ keys2, resolvePath conf keys2 = none → resolvePath conf2 keys2 = none := by
  induction keys with
  | nil => intro conf conf2 val hap _ _; simp [applyKeys] at hap
  | cons k tail ih =>
      intro conf conf2 val hap keys2 hnone
      cases tail with
      | nil =>
          simp only [applyKeys] at hap
          cases hl : lookupKey conf k with
          | none => rw [hl] at hap; simp at hap
          | some prev =>
              rw [hl] at hap
              simp only at hap
              cases hc : coerce prev k val with
              | error e => rw [hc] at hap; simp at hap
              | ok w =>
                  rw [hc] at hap
                  simp only [Except.ok.injEq] at hap
                  subst hap
                  cases keys2 with
                  | nil => simp [resolvePath]
                  | cons k2 tail2 =>
                      cases tail2 with
                      | nil =>
                          by_cases hk : k2 = k
                          · subst hk; simp [resolvePath, hl] at hnone
                          · simp only [resolvePath] at hnone ⊢
                            rw [lookup_setKey_other conf k k2 w hk]
                            exact hnone
                      | cons k3 rest2 =>
                          by_cases hk : k2 = k
                          · subst hk
                            have hself := lookup_setKey_self conf k2 w (by simp [hl])
                            simp only [resolvePath, hself]
                            cases w with
                            | jobj l => exact absurd rfl (coerce_ok_not_obj prev k2 val _ hc l)
                            | jstr s => simp
                            | jnum n => simp
                            | jint n => simp
                            | jbool b => simp
                            | jnull => simp
                            | jarr a => simp
                          · simp only [resolvePath] at hnone ⊢
                            rw [lookup_setKey_other conf k k2 w hk]
                            exact hnone
      | cons kt tail2 =>
          simp only [applyKeys] at hap
          cases hl : lookupKey conf k with
          | none => rw [hl] at hap; simp at hap
          | some v =>
              rw [hl] at hap
              cases v with
              | jobj sub =>
                  simp only at hap
                  cases ha : applyKeys sub (kt :: tail2) val with
                  | error e => rw [ha] at hap; simp at hap
                  | ok sub2 =>
                      rw [ha] at hap
                      simp only [Except.ok.injEq] at hap
                      subst hap
                      cases keys2 with
                      | nil => simp [resolvePath]
                      | cons k2 t2 =>
                          cases t2 with
                          | nil =>
                              by_cases hk : k2 = k
                              · subst hk; simp [resolvePath, hl] at hnone
                              · simp only [resolvePath] at hnone ⊢
                                rw [lookup_setKey_other conf k k2 _ hk]
                                exact hnone
                          | cons k3 rest2 =>
                              by_cases hk : k2 = k
                              · subst hk
                                have hself := lookup_setKey_self conf k2 (JVal.jobj sub2) (by simp [hl])
                                simp only [resolvePath, hself]
                                simp only [resolvePath, hl] at hnone
                                exact ih sub sub2 val ha (k3 :: rest2) hnone
                              · simp only [resolvePath] at hnone ⊢
                                rw [lookup_setKey_other conf k k2 _ hk]
                                exact hnone
              | jstr s => simp at hap
              | jnum n => simp at hap
              | jint n => simp at hap
              | jbool b => simp at hap
              | jnull => simp at hap
              | jarr a => simp at hap

theorem applyOpts_err_of_missing (opts : List String) :
    ∀ (conf : List (String × JVal)) (opt k v : String),
      opt ∈ opts → splitChar '=' opt = [k, v] →
      resolvePath conf (splitChar '.' k) = none →
      isErrorB (applyOpts conf opts) = true := by
  induction opts with
  | nil => intro conf opt k v hmem _ _; simp at hmem
  | cons o rest ih =>
      intro conf opt k v hmem hsplit hres
      rcases List.mem_cons.mp hmem with heq | hmem2
      · subst heq
        have herr : isErrorB (applyOpt conf opt) = true := by
          simp only [applyOpt, hsplit]
          exact resolve_none_err _ conf v hres
        cases hap : applyOpt conf opt with
        | ok c2 => rw [hap] at herr; simp [isErrorB] at herr
        | error e => simp only [applyOpts, hap, isErrorB]
      · cases hap : applyOpt conf o with
        | error e => simp only [applyOpts, hap, isErrorB]
        | ok c2 =>
            simp only [applyOpts, hap]
            apply ih c2 opt k v hmem2 hsplit
            revert hap
            simp only [applyOpt]
            cases hsp : splitChar '=' o with
            | nil => intro hap; simp at hap
            | cons a bs =>
                cases bs with
                | nil => intro hap; simp at hap
                | cons b cs =>
                    cases cs with
                    | nil =>
                        intro hap
                        exact applyKeys_preserves_none (splitChar '.' a) conf c2 b hap
                          (splitChar '.' k) hres
                    | cons d ds => intro hap; simp at hap

theorem fsRead_fsWrite_other (fs : FS) (p q c : String) (h : p ≠ q) :
    fsRead (fsWrite fs q c) p = fsRead fs p := by
  induction fs with
  | nil =>
      have hne : q ≠ p := fun hh => h hh.symm
      simp [fsWrite, fsRead, if_neg hne]
  | cons e rest ih =>
      obtain ⟨r, t⟩ := e
      by_cases hr : r = q
      · subst hr
        have hne : r ≠ p := fun hh => h (hh ▸ rfl)
        simp [fsWrite, fsRead, if_neg hne]
      · simp only [fsWrite, if_neg hr, fsRead]
        by_cases hp : r = p <;> simp [hp, ih]

/-- Claim C1: for every loaded configuration and every override pair
whose dotted key path resolves to an existing leaf, the override engine
coerces the value by the existing leaf category: an existing string leaf
is replaced with the literal text; an existing number (`float64`) leaf is
replaced with the `strconv.Atoi` parse of the text, a parse failure being
an error; an existing boolean leaf is set from the case-insensitive
comparison with "true"/"false", any other text being an error; and any
other existing category (object, array, null) is an error. -/
theorem overrideOpts_coerces_by_leaf_category
    (conf : List (String × JVal)) (keys : List String) (val : String) (prev : JVal)
    (h : resolvePath conf keys = some prev) :
    (∀ s, prev = JVal.jstr s →
        applyKeys conf keys val = .ok (setPath conf keys (JVal.jstr val)))
    ∧ (∀ n, prev = JVal.jnum n →
        (∀ m, atoi val = some m →
            applyKeys conf keys val = .ok (setPath conf keys (JVal.jint m)))
        ∧ (atoi val = none → isErrorB (applyKeys conf keys val) = true))
    ∧ (∀ b, prev = JVal.jbool b →
        (strToLower val = "true" →
            applyKeys conf keys val = .ok (setPath conf keys (JVal.jbool true)))
        ∧ (strToLower val = "false" →
            applyKeys conf keys val = .ok (setPath conf keys (JVal.jbool false)))
        ∧ (strToLower val ≠ "true" → strToLower val ≠ "false" →
            isErrorB (applyKeys conf keys val) = true))
    ∧ (∀ l, prev = JVal.jobj l → isErrorB (applyKeys conf keys val) = true)
    ∧ (∀ a, prev = JVal.jarr a → isErrorB (applyKeys conf keys val) = true)
    ∧ (prev = JVal.jnull → isErrorB (applyKeys conf keys val) = true) := by
  refine ⟨?_, ?_, ?_, ?_, ?_, ?_⟩
  · intro s hs
    subst hs
    exact applyKeys_ok_of_resolve keys conf _ _ "" val h rfl
  · intro n hn
    subst hn
    constructor
    · intro m hm
      exact applyKeys_ok_of_resolve keys conf _ _ "" val h (by simp [coerce, hm])
    · intro hm
      exact applyKeys_err_of_resolve keys conf _ "" val h (by simp [coerce, hm, isErrorB])
  · intro b hb
    subst hb
    refine ⟨?_, ?_, ?_⟩
    · intro h1
      exact applyKeys_ok_of_resolve keys conf _ _ "" val h (by simp [coerce, h1])
    · intro h2
      exact applyKeys_ok_of_resolve keys conf _ _ "" val h (by simp [coerce, h2])
    · intro h1 h2
      exact applyKeys_err_of_resolve keys conf _ "" val h (by simp [coerce, h1, h2, isErrorB])
  · intro l hl
    subst hl
    exact applyKeys_err_of_resolve keys conf _ "" val h (by simp [coerce, isErrorB, goTypeName])
  · intro a ha
    subst ha
    exact applyKeys_err_of_resolve keys conf _ "" val h (by simp [coerce, isErrorB, goTypeName])
  · intro hn
    subst hn
    exact applyKeys_err_of_resolve keys conf _ "" val h (by simp [coerce, isErrorB, goTypeName])

/-- Witness for claim C1 at a concrete configuration. -/
theorem overrideOpts_coerces_by_leaf_category_witness :
    applyKeys [("a", JVal.jstr "x")] ["a"] "y"
      = .ok (setPath [("a", JVal.jstr "x")] ["a"] (JVal.jstr "y")) :=
  (overrideOpts_coerces_by_leaf_category [("a", JVal.jstr "x")] ["a"] "y"
    (JVal.jstr "x") rfl).1 "x" rfl

/-- Claim C2: for every configuration and every override spec containing
a dotted key whose path does not resolve (missing intermediate key,
non-map intermediate, or missing leaf), `overrideOpts` returns an error
and the output file is not written. -/
theorem overrideOpts_missing_path_errors
    (fs : FS) (conf : List (String × JVal))
    (confPath overridePath optsStr opt k v : String)
    (h1 : opt ∈ splitChar ',' optsStr) (h2 : splitChar '=' opt = [k, v])
    (h3 : resolvePath conf (splitChar '.' k) = none) :
    (overrideOpts fs conf confPath overridePath optsStr).2.isSome = true
    ∧ (overrideOpts fs conf confPath overridePath optsStr).1 = fs := by
  have herr := applyOpts_err_of_missing (splitChar ',' optsStr) conf opt k v h1 h2 h3
  unfold overrideOpts
  cases hr : fsRead fs confPath with
  | none => simp
  | some b =>
      cases hap : applyOpts conf (splitChar ',' optsStr) with
      | ok c2 => rw [hap] at herr; simp [isErrorB] at herr
      | error e => simp

/-- Witness for claim C2 at a concrete configuration and spec. -/
theorem overrideOpts_missing_path_errors_witness :
    (overrideOpts [("cfg", "x")] [("a", JVal.jstr "x")] "cfg" "cfg.overrides" "b=1").2.isSome = true
    ∧ (overrideOpts [("cfg", "x")] [("a", JVal.jstr "x")] "cfg" "cfg.overrides" "b=1").1
        = [("cfg", "x")] :=
  overrideOpts_missing_path_errors [("cfg", "x")] [("a", JVal.jstr "x")]
    "cfg" "cfg.overrides" "b=1" "b=1" "b" "1" (by decide) (by decide) rfl

/-- Claim C3 (amended): a successful application serializes the merged
tree with the tab-indented encoder and performs exactly one file-map
update, at `overridePath`; every other path — in particular `confPath`
whenever it differs from `overridePath` — reads unchanged afterwards. -/
theorem overrideOpts_success_single_write
    (fs : FS) (conf conf2 : List (String × JVal))
    (confPath overridePath optsStr : String)
    (hr : (fsRead fs confPath).isSome = true)
    (hap : applyOpts conf (splitChar ',' optsStr) = .ok conf2) :
    overrideOpts fs conf confPath overridePath optsStr
      = (fsWrite fs overridePath (marshalIndent (JVal.jobj conf2)), none)
    ∧ ∀ p, p ≠ overridePath →
        fsRead (fsWrite fs overridePath (marshalIndent (JVal.jobj conf2))) p = fsRead fs p := by
  constructor
  · unfold overrideOpts
    cases hfr : fsRead fs confPath with
    | none => rw [hfr] at hr; simp at hr
    | some b => rw [hap]
  · intro p hp
    exact fsRead_fsWrite_other fs p overridePath _ hp

/-- Witness for claim C3 at a concrete configuration and spec. -/
theorem overrideOpts_success_single_write_witness :
    overrideOpts [("cfg", "x")] [("a", JVal.jstr "x")] "cfg" "cfg.overrides" "a=y"
      = (fsWrite [("cfg", "x")] "cfg.overrides" (marshalIndent (JVal.jobj [("a", JVal.jstr "y")])),
         none) :=
  (overrideOpts_success_single_write [("cfg", "x")] [("a", JVal.jstr "x")]
    [("a", JVal.jstr "y")] "cfg" "cfg.overrides" "a=y" rfl rfl).1

/-- Counterexample to claim C3 as stated: when `overridePath` equals the
base `confPath`, a successful application does write the output yet the
file at the base path does not keep its previous content. -/
theorem overrideOpts_basePath_touched_cex :
    (overrideOpts [("cfg", "orig")] [("a", JVal.jstr "x")] "cfg" "cfg" "a=y").2 = none
    ∧ fsRead (overrideOpts [("cfg", "orig")] [("a", JVal.jstr "x")] "cfg" "cfg" "a=y").1 "cfg"
        ≠ some "orig" := by
  constructor
  · rfl
  · decide

theorem pollFrom_attempts_le (pid : Nat) (env : Nat → PollEvent) :
    ∀ (rem i sleeps : Nat) (pe : Option String),
      (pollFrom pid env i rem sleeps pe).attempts ≤ i + rem := by
  intro rem
  induction rem with
  | zero => intro i sleeps pe; simp [pollFrom]
  | succ r ih =>
      intro i sleeps pe
      cases henv : env i with
      | died we =>
          cases we with
          | none => simp [pollFrom, henv]
          | some e => simp [pollFrom, henv]
      | connFail e =>
          simp only [pollFrom, henv]
          have := ih (i + 1) (sleeps + 1) (some e)
          omega
      | response body =>
          cases hA : atoi (trimSpace body) with
          | none => simp [pollFrom, henv, hA]
          | some p =>
              by_cases hp : p = (pid : Int)
              · simp [pollFrom, henv, hA, hp]
              · simp [pollFrom, henv, hA, hp]

theorem pollFrom_reach (pid : Nat) (env : Nat → PollEvent) :
    ∀ i, i ≤ 300 → (∀ j, j < i → ∃ s, env j = PollEvent.connFail s) →
      pollReady pid env = pollFrom pid env i (300 - i) i (lastPing env i) := by
  intro i
  induction i with
  | zero => intro _ _; rfl
  | succ n ih =>
      intro hle hconn
      have h1 : pollReady pid env = pollFrom pid env n (300 - n) n (lastPing env n) :=
        ih (by omega) (fun j hj => hconn j (by omega))
      obtain ⟨s, hs⟩ := hconn n (by omega)
      rw [h1]
      have hrem : 300 - n = (300 - (n + 1)) + 1 := by omega
      rw [hrem]
      simp only [pollFrom, hs]
      have hlast : lastPing env (n + 1) = some s := by simp [lastPing, hs]
      rw [hlast]

/-- Claim C5: the readiness polling loop performs at most 300 attempts,
sleeping 100ms after each connection-failure attempt, and when every
attempt fails to connect it returns the timeout error carrying the last
connection error observed (here the error of attempt 299), after 300
attempts and 300 sleeps. -/
theorem up_poll_bounded_and_timeout (pid : Nat) (env : Nat → PollEvent) (e : Nat → String) :
    (pollReady pid env).attempts ≤ 300
    ∧ ((∀ j, j < 300 → env j = PollEvent.connFail (e j)) →
        pollReady pid env
          = ⟨CmdResult.err ("worker still not reachable after 30 seconds :: " ++ e 299),
             300, 300⟩) := by
  constructor
  · have := pollFrom_attempts_le pid env 300 0 0 none
    simpa [pollReady] using this
  · intro hc
    have hreach := pollFrom_reach pid env 300 (le_refl 300) (fun j hj => ⟨e j, hc j hj⟩)
    rw [hreach]
    have hlast : lastPing env 300 = some (e 299) := by
      simp [lastPing, hc 299 (by omega)]
    rw [hlast]
    rfl

/-- Witness for claim C5 with a daemon that never becomes reachable. -/
theorem up_poll_bounded_and_timeout_witness :
    pollReady 7 (fun _ => PollEvent.connFail "connection refused")
      = ⟨CmdResult.err ("worker still not reachable after 30 seconds :: " ++ "connection refused"),
         300, 300⟩ :=
  (up_poll_bounded_and_timeout 7 (fun _ => PollEvent.connFail "connection refused")
    (fun _ => "connection refused")).2 (fun _ _ => rfl)

/-- Claim C4: in an attempt whose HTTP request succeeds and whose body
parses as an integer, the poller returns immediately (attempt count
`i + 1`, no further retries): success when the reported PID equals the
launched child PID, the fatal port-conflict error when it differs. -/
theorem up_poll_pid_check (pid : Nat) (env : Nat → PollEvent) (i : Nat) (body : String) (p : Int)
    (hi : i < 300) (hpre : ∀ j, j < i → ∃ s, env j = PollEvent.connFail s)
    (hresp : env i = PollEvent.response body) (hparse : atoi (trimSpace body) = some p) :
    (p = (pid : Int) → pollReady pid env = ⟨CmdResult.ok, i + 1, i⟩)
    ∧ (p ≠ (pid : Int) →
        pollReady pid env
          = ⟨CmdResult.err ("expected PID " ++ toString pid ++ " but found "
              ++ toString p ++ " (port conflict?)"), i + 1, i⟩) := by
  have hreach := pollFrom_reach pid env i (by omega) hpre
  have hrem : 300 - i = (300 - (i + 1)) + 1 := by omega
  constructor
  · intro hp
    rw [hreach, hrem]
    simp [pollFrom, hresp, hparse, hp]
  · intro hp
    rw [hreach, hrem]
    simp [pollFrom, hresp, hparse, hp]

/-- Witness for claim C4: matching PID at the first attempt succeeds
immediately; a different PID fails immediately with the port-conflict
error. -/
theorem up_poll_pid_check_witness :
    pollReady 7 (fun _ => PollEvent.response "7") = ⟨CmdResult.ok, 1, 0⟩
    ∧ pollReady 7 (fun _ => PollEvent.response "8")
        = ⟨CmdResult.err ("expected PID " ++ toString 7 ++ " but found "
            ++ toString (8 : Int) ++ " (port conflict?)"), 1, 0⟩ :=
  ⟨(up_poll_pid_check 7 (fun _ => PollEvent.response "7") 0 "7" 7 (by omega)
      (fun j hj => absurd hj (Nat.not_lt_zero j)) rfl (by decide)).1 rfl,
   (up_poll_pid_check 7 (fun _ => PollEvent.response "8") 0 "8" 8 (by omega)
      (fun j hj => absurd hj (Nat.not_lt_zero j)) rfl (by decide)).2 (by decide)⟩

/-- Claim C10: in an attempt whose HTTP request succeeds but whose body
does not parse as a decimal integer, the poller returns the parse error
immediately: attempt count `i + 1` and no additional sleep (the sleeps
stay at the `i` accumulated by the earlier connection failures). -/
theorem up_poll_parse_failure_immediate (pid : Nat) (env : Nat → PollEvent)
    (i : Nat) (body : String)
    (hi : i < 300) (hpre : ∀ j, j < i → ∃ s, env j = PollEvent.connFail s)
    (hresp : env i = PollEvent.response body) (hparse : atoi (trimSpace body) = none) :
    pollReady pid env
      = ⟨CmdResult.err ("/pid did not return an int :: " ++ atoiErr (trimSpace body)),
         i + 1, i⟩ := by
  have hreach := pollFrom_reach pid env i (by omega) hpre
  have hrem : 300 - i = (300 - (i + 1)) + 1 := by omega
  rw [hreach, hrem]
  simp [pollFrom, hresp, hparse]

/-- Witness for claim C10 with a body that is not a number. -/
theorem up_poll_parse_failure_immediate_witness :
    pollReady 7 (fun _ => PollEvent.response "ready")
      = ⟨CmdResult.err ("/pid did not return an int :: " ++ atoiErr (trimSpace "ready")), 1, 0⟩ :=
  up_poll_parse_failure_immediate 7 (fun _ => PollEvent.response "ready") 0 "ready"
    (by omega) (fun j hj => absurd hj (Nat.not_lt_zero j)) rfl (by decide)

theorem downWaitFrom_alive (alive : Nat → Bool) :
    ∀ (rem i : Nat), (∀ j, j < i + rem → alive j = true) →
      downWaitFrom alive i rem = CmdResult.err downTimeoutMsg := by
  intro rem
  induction rem with
  | zero => intro i _; rfl
  | succ r ih =>
      intro i h
      have hai : alive i = true := h i (by omega)
      simp only [downWaitFrom, hai, if_true]
      exact ih (i + 1) (fun j hj => h j (by omega))

/-- Claim C6 (amended): when the zero-signal probe keeps succeeding for
all 300 attempts, `down` returns the fixed timeout error
"worker didn't stop after 30s" — a message that names neither the PID
nor manual intervention. -/
theorem down_alive_timeout (pid : Nat) (findErr signalErr : Option String) (alive : Nat → Bool)
    (h : ∀ j, j < 300 → alive j = true) :
    (down pid findErr signalErr alive).1 = CmdResult.err downTimeoutMsg :=
  downWaitFrom_alive alive 300 0 (fun j hj => h j (by omega))

/-- Witness for claim C6 with an immortal process. -/
theorem down_alive_timeout_witness :
    (down 1 none none (fun _ => true)).1 = CmdResult.err downTimeoutMsg :=
  down_alive_timeout 1 none none (fun _ => true) (fun _ _ => rfl)

set_option maxRecDepth 4096 in
/-- Counterexample to claim C6 as stated: the timeout error of `down`
for the surviving process 1234 contains neither the decimal PID nor any
advice about manual intervention. -/
theorem down_timeout_message_cex :
    (down 1234 none none (fun _ => true)).1 = CmdResult.err downTimeoutMsg
    ∧ isSubOf "1234".toList downTimeoutMsg.toList = false
    ∧ isSubOf "manual".toList downTimeoutMsg.toList = false := by
  refine ⟨?_, by decide, by decide⟩
  exact downWaitFrom_alive (fun _ => true) 300 0 (fun _ _ => rfl)

/-- Claim C7: given a resolved environment path, the force-cleanup
action never fails: its Go result is `nil` for every possible outcome of
every internal step, and the later steps — the parent unmount and the
PID-file removal, as well as both directory listings — are attempted no
matter how the earlier steps fare. -/
theorem cleanup_never_fails (olPath : String) (o : CleanupOracle) :
    (cleanup olPath o).1 = CmdResult.ok
    ∧ OSOp.unmount (mountDir olPath) ∈ (cleanup olPath o).2.trace
    ∧ OSOp.removeFile (pidFilePath olPath) ∈ (cleanup olPath o).2.trace
    ∧ OSOp.readDir (cgDir olPath) ∈ (cleanup olPath o).2.trace
    ∧ OSOp.readDir (mountDir olPath) ∈ (cleanup olPath o).2.trace := by
  refine ⟨rfl, ?_, ?_, ?_, ?_⟩
  · simp [cleanup, cleanupRun]
  · simp [cleanup, cleanupRun]
  · cases h : o.readDir (cgDir olPath) <;> simp [cleanup, cleanupRun, cgPhase, h]
  · cases h : o.readDir (mountDir olPath) <;> simp [cleanup, cleanupRun, mountPhase, h]

/-- An oracle on which every operating-system call fails. -/
def oracleAllFail : CleanupOracle :=
  ⟨fun _ => .error "nope", fun _ _ => some "nope", fun _ => some "nope",
   fun _ => some "nope", fun _ => some "nope"⟩

/-- An oracle whose directory listings return one entry and whose
destructive calls all succeed. -/
def oracleOneMount : CleanupOracle :=
  ⟨fun _ => .ok ["m1"], fun _ _ => none, fun _ => none, fun _ => none, fun _ => none⟩

/-- Claim C8 (amended): the detached unmount of the parent
root-sandboxes directory is performed after its entries are cleared when
the directory was listable, and it is also performed — unconditionally —
when listing the directory fails, because the unmount sits outside the
if/else on the listing in the source. -/
theorem cleanup_parent_unmount_unconditional (olPath : String) (o : CleanupOracle) :
    (∀ files, o.readDir (mountDir olPath) = .ok files →
        (cleanupRun olPath o).trace
          = (cgPhase olPath o).1
            ++ (OSOp.readDir (mountDir olPath) :: mountChildTrace (mountDir olPath) files)
            ++ [OSOp.unmount (mountDir olPath), OSOp.removeFile (pidFilePath olPath)])
    ∧ (∀ e, o.readDir (mountDir olPath) = .error e →
        (cleanupRun olPath o).trace
          = (cgPhase olPath o).1
            ++ [OSOp.readDir (mountDir olPath),
                OSOp.unmount (mountDir olPath), OSOp.removeFile (pidFilePath olPath)]) := by
  constructor
  · intro files hf
    simp [cleanupRun, mountPhase, hf]
  · intro e hf
    simp [cleanupRun, mountPhase, hf]

/-- Witness for claim C8 on a listable directory with one entry. -/
theorem cleanup_parent_unmount_unconditional_witness :
    (cleanupRun "/ol" oracleOneMount).trace
      = (cgPhase "/ol" oracleOneMount).1
        ++ (OSOp.readDir (mountDir "/ol") :: mountChildTrace (mountDir "/ol") ["m1"])
        ++ [OSOp.unmount (mountDir "/ol"), OSOp.removeFile (pidFilePath "/ol")] :=
  (cleanup_parent_unmount_unconditional "/ol" oracleOneMount).1 ["m1"] rfl

set_option maxRecDepth 4096 in
/-- Counterexample to claim C8 as stated: when listing the
root-sandboxes directory fails, the source still detach-unmounts the
parent directory (the unmount appears in the attempted trace). -/
theorem cleanup_parent_unmount_cex :
    oracleAllFail.readDir (mountDir "/ol") = .error "nope"
    ∧ OSOp.unmount (mountDir "/ol") ∈ (cleanupRun "/ol" oracleAllFail).trace := by
  exact ⟨rfl, by decide⟩

/-- An oracle on which every initialization step succeeds. -/
def initOracleOk : InitOracle :=
  ⟨fun _ => none, fun _ => none, fun _ => none, none, fun _ _ => none,
   fun _ _ => none, fun _ _ _ _ => none, "/ol/worker", "/ol/registry", "/ol/base"⟩

/-- Claim C9: once every earlier initialization step has succeeded, the
three `mknod` calls create the character device nodes null (major 1,
minor 3), random (major 1, minor 8) and urandom (major 1, minor 9)
inside the dev directory of the base image, each with mode 0644
(owner read/write, group and others read); when all three succeed the
initialization succeeds and the three nodes appear in the attempted
steps, and a failure of any one of them aborts initialization with that
very error. -/
theorem initOLDir_device_nodes
    (o : InitOracle) (olPath image : String)
    (h1 : o.mkdir olPath = none)
    (h2 : o.loadDefaults olPath = none)
    (h3 : o.saveConf (joinPath olPath "config.json") = none)
    (h4 : o.mkdir o.workerDir = none)
    (h5 : o.mkdir o.registryDir = none)
    (h6 : o.newDockerClient = none)
    (h7 : o.dumpImage (imageOrDefault image) o.sockBasePath = none)
    (h8 : o.mkdir (joinPath o.sockBasePath "handler") = none)
    (h9 : o.mkdir (joinPath o.sockBasePath "host") = none)
    (h10 : o.mkdir (joinPath o.sockBasePath "packages") = none)
    (h11 : o.writeFile (joinPath (joinPath o.sockBasePath "etc") "resolv.conf")
        "nameserver 8.8.8.8\n" = none) :
    (o.mknod (joinPath (joinPath o.sockBasePath "dev") "null") "0644" 1 3 = none →
     o.mknod (joinPath (joinPath o.sockBasePath "dev") "random") "0644" 1 8 = none →
     o.mknod (joinPath (joinPath o.sockBasePath "dev") "urandom") "0644" 1 9 = none →
        (initOLDir o olPath image).2 = CmdResult.ok
        ∧ InitOp.mknod (joinPath (joinPath o.sockBasePath "dev") "null") "0644" 1 3
            ∈ (initOLDir o olPath image).1
        ∧ InitOp.mknod (joinPath (joinPath o.sockBasePath "dev") "random") "0644" 1 8
            ∈ (initOLDir o olPath image).1
        ∧ InitOp.mknod (joinPath (joinPath o.sockBasePath "dev") "urandom") "0644" 1 9
            ∈ (initOLDir o olPath image).1)
    ∧ (∀ e, o.mknod (joinPath (joinPath o.sockBasePath "dev") "null") "0644" 1 3 = some e →
        (initOLDir o olPath image).2 = CmdResult.err e)
    ∧ (∀ e, o.mknod (joinPath (joinPath o.sockBasePath "dev") "null") "0644" 1 3 = none →
        o.mknod (joinPath (joinPath o.sockBasePath "dev") "random") "0644" 1 8 = some e →
        (initOLDir o olPath image).2 = CmdResult.err e)
    ∧ (∀ e, o.mknod (joinPath (joinPath o.sockBasePath "dev") "null") "0644" 1 3 = none →
        o.mknod (joinPath (joinPath o.sockBasePath "dev") "random") "0644" 1 8 = none →
        o.mknod (joinPath (joinPath o.sockBasePath "dev") "urandom") "0644" 1 9 = some e →
        (initOLDir o olPath image).2 = CmdResult.err e) := by
  refine ⟨?_, ?_, ?_, ?_⟩
  · intro hm1 hm2 hm3
    refine ⟨?_, ?_, ?_, ?_⟩ <;>
      simp [initOLDir, initStep, h1, h2, h3, h4, h5, h6, h7, h8, h9, h10, h11, hm1, hm2, hm3]
  · intro e hm1
    simp [initOLDir, initStep, h1, h2, h3, h4, h5, h6, h7, h8, h9, h10, h11, hm1]
  · intro e hm1 hm2
    simp [initOLDir, initStep, h1, h2, h3, h4, h5, h6, h7, h8, h9, h10, h11, hm1, hm2]
  · intro e hm1 hm2 hm3
    simp [initOLDir, initStep, h1, h2, h3, h4, h5, h6, h7, h8, h9, h10, h11, hm1, hm2, hm3]

/-- Witness for claim C9 on an oracle where every step succeeds. -/
theorem initOLDir_device_nodes_witness :
    (initOLDir initOracleOk "/ol" "").2 = CmdResult.ok
    ∧ InitOp.mknod (joinPath (joinPath initOracleOk.sockBasePath "dev") "null") "0644" 1 3
        ∈ (initOLDir initOracleOk "/ol" "").1
    ∧ InitOp.mknod (joinPath (joinPath initOracleOk.sockBasePath "dev") "random") "0644" 1 8
        ∈ (initOLDir initOracleOk "/ol" "").1
    ∧ InitOp.mknod (joinPath (joinPath initOracleOk.sockBasePath "dev") "urandom") "0644" 1 9
        ∈ (initOLDir initOracleOk "/ol" "").1 :=
  (initOLDir_device_nodes initOracleOk "/ol" ""
    rfl rfl rfl rfl rfl rfl rfl rfl rfl rfl rfl).1 rfl rfl rfl
